import Mathlib

/-!
Verification of the frigate export reconciliation script
(`src/frigate/scripts/main.py`) against its specification.

Strings are modelled as lists of characters (`Str`); Python's
`str.split(sep)` is `splitOnChar`, `os.path.basename` / `pathlib.Path.name`
is `basename` (they agree on all inputs without a trailing slash, the only
ones arising here), and `str.isdigit` is `py_isdigit` (restricted to ASCII
digits; the script never feeds it non-ASCII data).  Time is modelled in
whole epoch seconds.  External collaborators (the filesystem, S3 upload
with verification, the frigate HTTP API, `datetime.strptime`) are oracles
collected in an `Env`; each periodic cycle is a pure function from the
environment and the fetched export list to the ordered trace of observable
actions (`Event`) it performs.
-/

/-- Strings as lists of characters. -/
abbrev Str := List Char

/-- Conversion from Lean string literals. -/
def str (s : String) : Str := s.data

/-- Python `s.split(sep)` helper: first piece and remaining pieces. -/
def splitP (sep : Char) : Str → Str × List Str
  | [] => ([], [])
  | c :: cs =>
    let r := splitP sep cs
    if c = sep then ([], r.1 :: r.2) else (c :: r.1, r.2)

/-- Python `s.split(sep)` (separator kept out, empty pieces kept). -/
def splitOnChar (sep : Char) (s : Str) : List Str :=
  (splitP sep s).1 :: (splitP sep s).2

/-- `os.path.basename`: the part after the last slash. -/
def basename (p : Str) : Str :=
  (splitOnChar '/' p).getLastD []

/-- Python `str.isdigit` for a single character (ASCII digits). -/
def isdigit (c : Char) : Bool := '0' ≤ c && c ≤ '9'

/-- Python `str.isdigit`: nonempty and all characters digits. -/
def py_isdigit (s : Str) : Bool := !s.isEmpty && s.all isdigit

/-- The parsing and validation part of `get_s3_path` (main.py lines 45-83):
basename, the `_`/`-` containment check, split on `_`, the ≥ 3 parts check,
extraction of camera / date / start-time, the length-8/length-6 checks, the
slicing into year/month/day/hour/minute, and the five digit checks.
Returns the extracted `(camera, year, month, day, hour, minute)`. -/
def parse_video_name (video_path : Str) :
    Option (Str × Str × Str × Str × Str × Str) :=
  let filename := basename video_path
  if ('_' ∈ filename) ∧ ('-' ∈ filename) then
    let parts := splitOnChar '_' filename
    if 3 ≤ parts.length then
      let camera := parts.getD 0 []
      let date_str := parts.getD 1 []
      let time_part := (splitOnChar '-' (parts.getD 2 [])).getD 0 []
      if date_str.length = 8 ∧ time_part.length = 6 then
        let year := date_str.take 4
        let month := (date_str.drop 4).take 2
        let day := (date_str.drop 6).take 2
        let hour := time_part.take 2
        let minute := (time_part.drop 2).take 2
        if py_isdigit year && py_isdigit month && py_isdigit day &&
            py_isdigit hour && py_isdigit minute then
          some (camera, year, month, day, hour, minute)
        else none
      else none
    else none
  else none

/-- The output format of `get_s3_path` (main.py line 85):
`f"{camera}/{year}/{month}/{day}/{hour}/{minute}M.mp4"`. -/
def buildKey : Str × Str × Str × Str × Str × Str → Str
  | (camera, year, month, day, hour, minute) =>
    camera ++ '/' :: year ++ '/' :: month ++ '/' :: day ++ '/' :: hour ++
      '/' :: minute ++ str "M.mp4"

/-- `get_s3_path` (main.py lines 45-89): convert a video path to the
organized S3 key, `None` on any validation failure; the enclosing
`try/except` returns `None` instead of raising, so the function is total. -/
def get_s3_path (video_path : Str) : Option Str :=
  (parse_video_name video_path).map buildKey

/-- IST (`Asia/Kolkata`) offset from UTC in seconds: UTC+5:30. -/
def istOffset : Int := 19800

/-- `get_past_ten_minute_window` (main.py lines 154-173) over epoch
seconds: take the current IST wall-clock time minus 12 minutes, replace the
minute by itself rounded down to a multiple of 10 and zero the seconds
(`.replace(minute=rounded_minute, second=0, microsecond=0)`), convert back
to epoch seconds, and return `(start, start + 10 minutes)`. -/
def get_past_ten_minute_window (now : Int) : Int × Int :=
  let current := now + istOffset - 720
  let minute := current / 60 % 60
  let rounded_minute := minute / 10 * 10
  let start_local := current - current % 60 - 60 * minute + 60 * rounded_minute
  let start_epoch := start_local - istOffset
  (start_epoch, start_epoch + 600)

/-- A Python value as it matters for truthiness tests on fields obtained
with `dict.get`: the key may be absent, or hold `None`, a bool or an int. -/
inductive PyVal where
  | missing
  | pyNone
  | pyBool (b : Bool)
  | pyInt (n : Int)
  deriving DecidableEq

/-- Python truthiness of such a value (`.get` of an absent key gives
`None`, which is falsy, as are `False` and `0`). -/
def truthy : PyVal → Bool
  | .missing => false
  | .pyNone => false
  | .pyBool b => b
  | .pyInt n => n != 0

/-- An export record as returned by `GET /api/exports`. -/
structure ExportRecord where
  id : Str
  camera : Str
  video_path : Str
  in_progress : PyVal
  date : Option Int
  deriving DecidableEq

/-- The external collaborators, as oracles: internet reachability
(`check_internet_connection`), file existence on the shared mount,
the outcome of `upload_to_s3` (upload + head-object verification, after
its internal retries), the outcome of `export_video` (after retries), and
`datetime.strptime` with format `%Y%m%d%H%M%S` composed with
`.timestamp()` (`none` models a raised `ValueError`). -/
structure Env where
  internet : Bool
  fileExists : Str → Bool
  uploadOk : Str → Str → Bool
  exportOk : Str → Int → Int → Bool
  strptime : Str → Option Int

/-- Observable actions of a reconciliation pass, in program order. -/
inductive Event where
  | uploaded (id : Str) (key : Str) (ok : Bool)
  | deleteCalled (id : Str)
  | resubmitted (id : Str) (camera : Str) (s e : Int) (ok : Bool)
  | logMissing (id : Str) (path : Str)
  | logParseFail (id : Str) (filename : Str)
  | logItemFail (id : Str)
  | logStuckFail (id : Str)
  deriving DecidableEq

/-- `get_finished_exports` (main.py lines 139-142): the exports whose
`in_progress` field is falsy. -/
def get_finished_exports (exports : List ExportRecord) : List ExportRecord :=
  exports.filter (fun exp => !truthy exp.in_progress)

/-- The local file path `f"/media/frigate/exports/{filename}"` computed in
`upload_and_cleanup` (main.py lines 215-216). -/
def local_path (exp : ExportRecord) : Str :=
  str "/media/frigate/exports/" ++ basename exp.video_path

/-- The body of the per-record loop of `upload_and_cleanup` (main.py lines
212-235): skip with a log if the local file is missing; skip with a log if
`get_s3_path` fails; otherwise upload, and call `delete_export` exactly
when the upload-and-verify succeeded, logging the failure otherwise. -/
def process_one (env : Env) (exp : ExportRecord) : List Event :=
  let lp := local_path exp
  if env.fileExists lp then
    match get_s3_path lp with
    | none => [.logParseFail exp.id (basename exp.video_path)]
    | some key =>
      if env.uploadOk lp key then
        [.uploaded exp.id key true, .deleteCalled exp.id]
      else
        [.uploaded exp.id key false, .logItemFail exp.id]
  else
    [.logMissing exp.id lp]

/-- `upload_and_cleanup` (main.py lines 201-238) applied to the snapshot
returned by `get_all_exports`: skip the whole cycle when the connectivity
gate fails, otherwise process each finished export independently (the
per-item `try/except` isolates failures). -/
def upload_and_cleanup (env : Env) (exports : List ExportRecord) : List Event :=
  if env.internet then
    (get_finished_exports exports).flatMap (process_one env)
  else
    []

/-- The stuck filter of `handle_stuck_exports` (main.py lines 248-256):
`in_progress` truthy and `(now - export.get('date', 0)) > 1800` seconds. -/
def is_stuck (now : Int) (exp : ExportRecord) : Bool :=
  truthy exp.in_progress && decide (1800 < now - exp.date.getD 0)

/-- The body of the per-record loop of `handle_stuck_exports` (main.py
lines 263-292): split the basename on `_`; when fewer than 4 parts, do
nothing at all (the `if len(parts) >= 4` has no else branch); otherwise
recover the window (`parts[2].split('-')[1]` raises when there is no dash;
`strptime` may raise; both are caught and logged), re-submit the export,
and call `delete_export` only when re-submission succeeded; any raised
failure is caught and logged with the record id. -/
def process_stuck_one (env : Env) (exp : ExportRecord) : List Event :=
  let filename := basename exp.video_path
  let parts := splitOnChar '_' filename
  if 4 ≤ parts.length then
    let seg := splitOnChar '-' (parts.getD 2 [])
    if 2 ≤ seg.length then
      match env.strptime (parts.getD 1 [] ++ seg.getD 0 []),
          env.strptime (seg.getD 1 [] ++ parts.getD 3 []) with
      | some s, some e =>
        if env.exportOk exp.camera s e then
          [.resubmitted exp.id exp.camera s e true, .deleteCalled exp.id]
        else
          [.resubmitted exp.id exp.camera s e false, .logStuckFail exp.id]
      | some _, none => [.logStuckFail exp.id]
      | none, _ => [.logStuckFail exp.id]
    else
      [.logStuckFail exp.id]
  else
    []

/-- `handle_stuck_exports` (main.py lines 241-295) applied to the snapshot
returned by `get_all_exports`: filter to stuck records, then process each
independently (the per-record `try/except` isolates failures). -/
def handle_stuck_exports (env : Env) (now : Int) (exports : List ExportRecord) :
    List Event :=
  (exports.filter (is_stuck now)).flatMap (process_stuck_one env)

/-- The camera-independent tail of `parse_video_name`: the same date/time
validation applied to everything after the first underscore. -/
def parse_tail (rest : Str) : Option (Str × Str × Str × Str × Str) :=
  let pieces := splitOnChar '_' rest
  if 2 ≤ pieces.length then
    let date_str := pieces.getD 0 []
    let time_part := (splitOnChar '-' (pieces.getD 1 [])).getD 0 []
    if date_str.length = 8 ∧ time_part.length = 6 then
      let year := date_str.take 4
      let month := (date_str.drop 4).take 2
      let day := (date_str.drop 6).take 2
      let hour := time_part.take 2
      let minute := (time_part.drop 2).take 2
      if py_isdigit year && py_isdigit month && py_isdigit day &&
          py_isdigit hour && py_isdigit minute then
        some (year, month, day, hour, minute)
      else none
    else none
  else none

/-- Fixture: environment where every external operation succeeds. -/
def envAll : Env :=
  ⟨true, fun _ => true, fun _ _ => true, fun _ _ _ => true, fun _ => some 1760000000⟩

/-- Fixture: environment whose shared filesystem has no files. -/
def envNoFile : Env :=
  ⟨true, fun _ => false, fun _ _ => true, fun _ _ _ => true, fun _ => some 1760000000⟩

/-- Fixture: environment where upload and re-submission always fail. -/
def envFail : Env :=
  ⟨true, fun _ => true, fun _ _ => false, fun _ _ _ => false, fun _ => some 1760000000⟩

/-- Fixture: a finished export with a well-formed filename. -/
def recDone : ExportRecord :=
  ⟨str "e1", str "roadside",
   str "roadside_20251011_160000-20251011_170000_6t96gi.mp4", .pyBool false, some 0⟩

/-- Fixture: a finished export whose filename cannot be parsed. -/
def recBadDone : ExportRecord :=
  ⟨str "e2", str "cam", str "bad.mp4", .pyBool false, some 0⟩

/-- Fixture: a stuck export with a well-formed filename. -/
def recStuck : ExportRecord :=
  ⟨str "s1", str "roadside",
   str "roadside_20251011_160000-20251011_170000_6t96gi.mp4", .pyBool true, some 0⟩

/-- Fixture: a stuck export whose filename has fewer than 4 parts. -/
def recBadName : ExportRecord :=
  ⟨str "s2", str "cam", str "bad.mp4", .pyBool true, some 0⟩

theorem splitP_fst_no_sep (sep : Char) (s : Str) : sep ∉ (splitP sep s).1 := by
  induction s with
  | nil => simp [splitP]
  | cons c cs ih =>
    simp only [splitP]
    split
    · simp
    · simp_all [List.mem_cons]
      intro h
      simp_all

theorem splitP_snd_no_sep (sep : Char) (s : Str) :
    ∀ p ∈ (splitP sep s).2, sep ∉ p := by
  induction s with
  | nil => simp [splitP]
  | cons c cs ih =>
    simp only [splitP]
    split
    · intro p hp
      rcases List.mem_cons.mp hp with h | h
      · subst h; exact splitP_fst_no_sep sep cs
      · exact ih p h
    · exact ih

theorem splitOnChar_no_sep (sep : Char) (s : Str) :
    ∀ p ∈ splitOnChar sep s, sep ∉ p := by
  intro p hp
  rcases List.mem_cons.mp hp with h | h
  · subst h; exact splitP_fst_no_sep sep s
  · exact splitP_snd_no_sep sep s p h

theorem splitP_fst_sub (sep : Char) (s : Str) :
    ∀ c ∈ (splitP sep s).1, c ∈ s := by
  induction s with
  | nil => simp [splitP]
  | cons c cs ih =>
    simp only [splitP]
    split
    · simp
    · intro x hx
      rcases List.mem_cons.mp hx with h | h
      · subst h; exact List.mem_cons_self _ _
      · exact List.mem_cons_of_mem _ (ih x h)

theorem splitP_snd_sub (sep : Char) (s : Str) :
    ∀ p ∈ (splitP sep s).2, ∀ c ∈ p, c ∈ s := by
  induction s with
  | nil => simp [splitP]
  | cons c cs ih =>
    simp only [splitP]
    split
    · intro p hp x hx
      rcases List.mem_cons.mp hp with h | h
      · subst h; exact List.mem_cons_of_mem _ (splitP_fst_sub sep cs x hx)
      · exact List.mem_cons_of_mem _ (ih p h x hx)
    · intro p hp x hx
      exact List.mem_cons_of_mem _ (ih p hp x hx)

theorem mem_splitOnChar_sub (sep : Char) (s : Str) :
    ∀ p ∈ splitOnChar sep s, ∀ c ∈ p, c ∈ s := by
  intro p hp
  rcases List.mem_cons.mp hp with h | h
  · subst h; exact splitP_fst_sub sep s
  · exact splitP_snd_sub sep s p h

theorem getLastD_mem {α : Type} (l : List α) : ∀ d : α, l ≠ [] → l.getLastD d ∈ l := by
  induction l with
  | nil => intro d h; simp at h
  | cons a l ih =>
    intro d _
    cases l with
    | nil => simp [List.getLastD]
    | cons b t =>
      rw [List.getLastD_cons]
      exact List.mem_cons_of_mem _ (ih a (by simp))

theorem basename_no_slash (p : Str) : '/' ∉ basename p := by
  have hmem : basename p ∈ splitOnChar '/' p :=
    getLastD_mem _ _ (by simp [splitOnChar])
  exact splitOnChar_no_sep '/' p _ hmem

theorem splitP_of_no_sep (sep : Char) (s : Str) (h : sep ∉ s) :
    splitP sep s = (s, []) := by
  induction s with
  | nil => simp [splitP]
  | cons c cs ih =>
    simp only [splitP]
    have hc : ¬ c = sep := by
      intro hc; exact h (hc ▸ List.mem_cons_self _ _)
    rw [if_neg hc, ih (fun hm => h (List.mem_cons_of_mem _ hm))]

theorem basename_of_no_slash (p : Str) (h : '/' ∉ p) : basename p = p := by
  simp [basename, splitOnChar, splitP_of_no_sep '/' p h, List.getLastD]

theorem splitP_append_sep (sep : Char) (a rest : Str) (h : sep ∉ a) :
    splitP sep (a ++ sep :: rest) = (a, splitOnChar sep rest) := by
  induction a with
  | nil => simp [splitP, splitOnChar]
  | cons c cs ih =>
    have hc : ¬ c = sep := fun hc => h (hc ▸ List.mem_cons_self _ _)
    have ih2 := ih (fun hm => h (List.mem_cons_of_mem _ hm))
    simp only [List.cons_append, splitP, List.append_eq, if_neg hc, ih2]

theorem splitOnChar_append_sep (sep : Char) (a rest : Str) (h : sep ∉ a) :
    splitOnChar sep (a ++ sep :: rest) = a :: splitOnChar sep rest := by
  simp [splitOnChar, splitP_append_sep sep a rest h]
/-- Any event emitted while processing one finished export is an event of
the whole upload cycle (the per-item loop processes every finished record
in turn and isolates failures). -/
theorem mem_upload_cycle (env : Env) (exports : List ExportRecord)
    (exp : ExportRecord) (ev : Event) (hint : env.internet = true)
    (hexp : exp ∈ get_finished_exports exports)
    (hev : ev ∈ process_one env exp) : ev ∈ upload_and_cleanup env exports := by
  simp only [upload_and_cleanup, hint, if_true]
  exact List.mem_flatMap.mpr ⟨exp, hexp, hev⟩

/-- C5: for every `now`, the computed window is 600 seconds wide, the start
sits on a 10-minute boundary of the fixed time zone (minute a multiple of
10, seconds zero), the end is at most `now - 120`, and the computation is
the 12-minute-delayed floor to the 10-minute grid with `end = start + 600`. -/
theorem window_props (now : Int) :
    (get_past_ten_minute_window now).2 - (get_past_ten_minute_window now).1 = 600 ∧
    (((get_past_ten_minute_window now).1 + istOffset) / 60) % 10 = 0 ∧
    ((get_past_ten_minute_window now).1 + istOffset) % 60 = 0 ∧
    (get_past_ten_minute_window now).2 ≤ now - 120 ∧
    (get_past_ten_minute_window now).1 + istOffset =
      600 * ((now + istOffset - 720) / 600) ∧
    (get_past_ten_minute_window now).2 = (get_past_ten_minute_window now).1 + 600 := by
  simp only [get_past_ten_minute_window, istOffset]
  refine ⟨by omega, ?_, by omega, by omega, by omega, by trivial⟩
  omega

/-- C3: the example filename maps to the bucketed key, and the three
malformed examples are all rejected. -/
theorem mapper_examples :
    get_s3_path (str "roadside_20251011_160000-20251011_170000_6t96gi.mp4")
      = some (str "roadside/2025/10/11/16/00M.mp4") ∧
    get_s3_path (str "bad.mp4") = none ∧
    get_s3_path (str "a_b.mp4") = none ∧
    get_s3_path (str "cam_2025101_160000-x_1.mp4") = none := by
  refine ⟨by decide, by decide, by decide, by decide⟩

/-- C6: the stuck filter selects exactly the records with truthy
`in_progress` and age strictly greater than 1800 seconds; at ages 1799 and
1800 a record is not selected, at 1801 it is. -/
theorem stuck_filter_boundary :
    (∀ (now : Int) (exports : List ExportRecord) (exp : ExportRecord),
      exp ∈ exports.filter (is_stuck now) ↔
        exp ∈ exports ∧ truthy exp.in_progress = true ∧
          1800 < now - exp.date.getD 0) ∧
    is_stuck 1799 ⟨str "e", str "cam", str "f.mp4", .pyBool true, some 0⟩ = false ∧
    is_stuck 1801 ⟨str "e", str "cam", str "f.mp4", .pyBool true, some 0⟩ = true ∧
    is_stuck 1800 ⟨str "e", str "cam", str "f.mp4", .pyBool true, some 0⟩ = false := by
  refine ⟨?_, by decide, by decide, by decide⟩
  intro now exports exp
  simp [List.mem_filter, is_stuck, and_assoc]

/-- C9: a record counts as finished exactly when its `in_progress` field is
falsy — in particular when the field is absent, `None`, `0` or `False` —
and every finished record of the snapshot is handed to the upload cycle's
per-item processing. -/
theorem finished_filter_truthiness :
    (∀ (exports : List ExportRecord) (exp : ExportRecord),
      exp ∈ get_finished_exports exports ↔
        exp ∈ exports ∧ truthy exp.in_progress = false) ∧
    truthy .missing = false ∧ truthy .pyNone = false ∧
    truthy (.pyInt 0) = false ∧ truthy (.pyBool false) = false ∧
    (∀ (env : Env) (exports : List ExportRecord) (exp : ExportRecord) (ev : Event),
      env.internet = true → exp ∈ exports → truthy exp.in_progress = false →
      ev ∈ process_one env exp → ev ∈ upload_and_cleanup env exports) := by
  refine ⟨?_, by decide, by decide, by decide, by decide, ?_⟩
  · intro exports exp
    simp [get_finished_exports, List.mem_filter]
  · intro env exports exp ev hint hmem hfin hev
    refine mem_upload_cycle env exports exp ev hint ?_ hev
    exact List.mem_filter.mpr ⟨hmem, by simp [hfin]⟩

/-- A `delete_export` call occurs while processing one finished export
exactly when the file existed, the key parsed, and upload-and-verify
succeeded. -/
theorem process_one_delete_iff (env : Env) (exp : ExportRecord) (i : Str) :
    Event.deleteCalled i ∈ process_one env exp ↔
      (i = exp.id ∧ env.fileExists (local_path exp) = true ∧
        ∃ k, get_s3_path (local_path exp) = some k ∧
          env.uploadOk (local_path exp) k = true) := by
  cases hfe : env.fileExists (local_path exp) with
  | false => simp [process_one, hfe]
  | true =>
    cases hk : get_s3_path (local_path exp) with
    | none => simp [process_one, hfe, hk]
    | some key =>
      cases hup : env.uploadOk (local_path exp) key with
      | false => simp [process_one, hfe, hk, hup]
      | true => simp [process_one, hfe, hk, hup]

/-- A successful upload event occurs while processing one finished export
exactly when the file existed, the key parsed to `k`, and upload-and-verify
succeeded on it. -/
theorem process_one_uploaded_iff (env : Env) (exp : ExportRecord) (i k : Str) :
    Event.uploaded i k true ∈ process_one env exp ↔
      (i = exp.id ∧ env.fileExists (local_path exp) = true ∧
        get_s3_path (local_path exp) = some k ∧
        env.uploadOk (local_path exp) k = true) := by
  cases hfe : env.fileExists (local_path exp) with
  | false => simp [process_one, hfe]
  | true =>
    cases hk : get_s3_path (local_path exp) with
    | none => simp [process_one, hfe, hk]
    | some key =>
      cases hup : env.uploadOk (local_path exp) key with
      | false =>
        simp [process_one, hfe, hk, hup]
        intro _ h
        subst h
        exact hup
      | true =>
        simp [process_one, hfe, hk, hup]
        intro _
        constructor
        · intro h
          subst h
          exact ⟨rfl, hup⟩
        · intro h
          exact h.1.symm

/-- While processing one finished export, `delete_export` is called exactly
when a successful upload event was emitted for the record. -/
theorem process_one_delete_iff_uploaded (env : Env) (exp : ExportRecord) (i : Str) :
    Event.deleteCalled i ∈ process_one env exp ↔
      ∃ k, Event.uploaded i k true ∈ process_one env exp := by
  rw [process_one_delete_iff]
  constructor
  · rintro ⟨hid, hfe, k, hk, hup⟩
    exact ⟨k, (process_one_uploaded_iff env exp i k).mpr ⟨hid, hfe, hk, hup⟩⟩
  · rintro ⟨k, h⟩
    obtain ⟨hid, hfe, hk, hup⟩ := (process_one_uploaded_iff env exp i k).mp h
    exact ⟨hid, hfe, k, hk, hup⟩

/-- While processing one stuck export, `delete_export` is called exactly
when the trace is a successful re-submission immediately followed by that
delete. -/
theorem process_stuck_delete_char (env : Env) (exp : ExportRecord) (i : Str) :
    Event.deleteCalled i ∈ process_stuck_one env exp ↔
      (i = exp.id ∧ ∃ s e, process_stuck_one env exp =
        [Event.resubmitted exp.id exp.camera s e true, Event.deleteCalled exp.id] ∧
        env.exportOk exp.camera s e = true) := by
  simp only [process_stuck_one]
  split
  · split
    · split
      · split
        · simp_all
          intro _
          exact ⟨_, _, ⟨rfl, rfl⟩, by assumption⟩
        · simp
      · simp
      · simp
    · simp
  · simp

/-- A successful re-submission event inside one stuck record's trace forces
the delete of that record to be in the trace as well. -/
theorem process_stuck_resub_delete (env : Env) (exp : ExportRecord)
    (i c : Str) (s e : Int)
    (h : Event.resubmitted i c s e true ∈ process_stuck_one env exp) :
    i = exp.id ∧ Event.deleteCalled exp.id ∈ process_stuck_one env exp := by
  simp only [process_stuck_one] at h ⊢
  split at h
  · split at h
    · split at h
      · split at h
        · simp_all
        · simp_all
      · simp_all
      · simp_all
    · simp_all
  · simp_all

/-- Cycle-level form for the upload pass: a source-side delete happens in
the pass exactly when a verified upload for the same record id happened. -/
theorem upload_cycle_delete_iff (env : Env) (exports : List ExportRecord) (i : Str) :
    Event.deleteCalled i ∈ upload_and_cleanup env exports ↔
      ∃ k, Event.uploaded i k true ∈ upload_and_cleanup env exports := by
  unfold upload_and_cleanup
  split
  · simp only [List.mem_flatMap]
    constructor
    · rintro ⟨r, hr, hd⟩
      obtain ⟨k, hk⟩ := (process_one_delete_iff_uploaded env r i).mp hd
      exact ⟨k, r, hr, hk⟩
    · rintro ⟨k, r, hr, hk⟩
      exact ⟨r, hr, (process_one_delete_iff_uploaded env r i).mpr ⟨k, hk⟩⟩
  · simp

/-- Cycle-level form for the stuck pass: a source-side delete happens in
the pass exactly when a successful re-submission for the same record id
happened. -/
theorem stuck_cycle_delete_iff (env : Env) (now : Int)
    (exports : List ExportRecord) (i : Str) :
    Event.deleteCalled i ∈ handle_stuck_exports env now exports ↔
      ∃ c s e, Event.resubmitted i c s e true ∈ handle_stuck_exports env now exports := by
  unfold handle_stuck_exports
  simp only [List.mem_flatMap]
  constructor
  · rintro ⟨r, hr, hd⟩
    obtain ⟨hid, s, e, htr, -⟩ := (process_stuck_delete_char env r i).mp hd
    refine ⟨r.camera, s, e, r, hr, ?_⟩
    rw [htr, hid]
    simp
  · rintro ⟨c, s, e, r, hr, hres⟩
    obtain ⟨hid, hdel⟩ := process_stuck_resub_delete env r i c s e hres
    exact ⟨r, hr, hid ▸ hdel⟩

/-- C1: in either cycle's pass, a source-side delete for a record occurs
exactly when that same pass contains a prior success for that record — a
verified upload in the upload cycle, a successful re-submission in the
stuck cycle; within one record's processing the delete directly follows
the success event, and on failure no delete for the record is emitted. -/
theorem delete_iff_prior_success :
    (∀ (env : Env) (exports : List ExportRecord) (i : Str),
      Event.deleteCalled i ∈ upload_and_cleanup env exports ↔
        ∃ k, Event.uploaded i k true ∈ upload_and_cleanup env exports) ∧
    (∀ (env : Env) (now : Int) (exports : List ExportRecord) (i : Str),
      Event.deleteCalled i ∈ handle_stuck_exports env now exports ↔
        ∃ c s e, Event.resubmitted i c s e true ∈ handle_stuck_exports env now exports) ∧
    (∀ (env : Env) (exp : ExportRecord),
      Event.deleteCalled exp.id ∈ process_one env exp →
        ∃ k, process_one env exp =
          [Event.uploaded exp.id k true, Event.deleteCalled exp.id]) ∧
    (∀ (env : Env) (exp : ExportRecord),
      Event.deleteCalled exp.id ∈ process_stuck_one env exp →
        ∃ s e, process_stuck_one env exp =
          [Event.resubmitted exp.id exp.camera s e true, Event.deleteCalled exp.id]) := by
  refine ⟨upload_cycle_delete_iff, stuck_cycle_delete_iff, ?_, ?_⟩
  · intro env exp h
    obtain ⟨-, hfe, k, hk, hup⟩ := (process_one_delete_iff env exp exp.id).mp h
    exact ⟨k, by simp [process_one, hfe, hk, hup]⟩
  · intro env exp h
    obtain ⟨-, s, e, htr, -⟩ := (process_stuck_delete_char env exp exp.id).mp h
    exact ⟨s, e, htr⟩

theorem delete_iff_prior_success_witness :
    ∃ k, process_one envAll recDone =
      [Event.uploaded recDone.id k true, Event.deleteCalled recDone.id] :=
  delete_iff_prior_success.2.2.1 envAll recDone (by decide)

/-- C7: a missing local file is logged and skipped, a mapping failure is
logged and skipped, every event of one finished record's processing
survives into the cycle trace regardless of the other records in the
batch, and a delete only ever happens when the file existed and the key
parsed — so neither skip can delete the source record. -/
theorem upload_item_isolation :
    (∀ (env : Env) (exp : ExportRecord),
      env.fileExists (local_path exp) = false →
      process_one env exp = [Event.logMissing exp.id (local_path exp)]) ∧
    (∀ (env : Env) (exp : ExportRecord),
      env.fileExists (local_path exp) = true →
      get_s3_path (local_path exp) = none →
      process_one env exp = [Event.logParseFail exp.id (basename exp.video_path)]) ∧
    (∀ (env : Env) (exports : List ExportRecord) (exp : ExportRecord) (ev : Event),
      env.internet = true → exp ∈ get_finished_exports exports →
      ev ∈ process_one env exp → ev ∈ upload_and_cleanup env exports) ∧
    (∀ (env : Env) (exp : ExportRecord) (i : Str),
      Event.deleteCalled i ∈ process_one env exp →
      env.fileExists (local_path exp) = true ∧
        (get_s3_path (local_path exp)).isSome = true) := by
  refine ⟨?_, ?_, mem_upload_cycle, ?_⟩
  · intro env exp h
    simp [process_one, h]
  · intro env exp h1 h2
    simp [process_one, h1, h2]
  · intro env exp i h
    obtain ⟨-, hfe, k, hk, -⟩ := (process_one_delete_iff env exp i).mp h
    exact ⟨hfe, by simp [hk]⟩

theorem upload_item_isolation_witness :
    process_one envNoFile recDone = [Event.logMissing recDone.id (local_path recDone)] ∧
    process_one envAll recBadDone =
      [Event.logParseFail recBadDone.id (basename recBadDone.video_path)] ∧
    Event.uploaded recDone.id (str "roadside/2025/10/11/16/00M.mp4") true ∈
      upload_and_cleanup envAll [recBadDone, recDone] :=
  ⟨upload_item_isolation.1 envNoFile recDone (by decide),
   upload_item_isolation.2.1 envAll recBadDone (by decide) (by decide),
   upload_item_isolation.2.2.1 envAll [recBadDone, recDone] recDone
     (Event.uploaded recDone.id (str "roadside/2025/10/11/16/00M.mp4") true)
     rfl (by decide) (by decide)⟩

/-- C4 (amended): every selected stuck record whose filename has at least
4 underscore-separated parts is acted on — either successfully
re-submitted and then deleted, or a failure is logged with its record id —
whereas a stuck record with fewer than 4 parts is silently skipped: its
processing emits no action and no log entry at all. -/
theorem stuck_recovery_logging (env : Env) (exp : ExportRecord) :
    (4 ≤ (splitOnChar '_' (basename exp.video_path)).length →
      (∃ s e, process_stuck_one env exp =
        [Event.resubmitted exp.id exp.camera s e true, Event.deleteCalled exp.id]) ∨
      Event.logStuckFail exp.id ∈ process_stuck_one env exp) ∧
    ((splitOnChar '_' (basename exp.video_path)).length < 4 →
      process_stuck_one env exp = []) := by
  constructor
  · intro h
    simp only [process_stuck_one, if_pos h]
    split
    · split
      · split
        · exact Or.inl ⟨_, _, rfl⟩
        · exact Or.inr (by simp)
      · exact Or.inr (by simp)
      · exact Or.inr (by simp)
    · exact Or.inr (by simp)
  · intro h
    simp only [process_stuck_one]
    rw [if_neg (by omega)]

theorem stuck_recovery_logging_witness :
    (∃ s e, process_stuck_one envFail recStuck =
      [Event.resubmitted recStuck.id recStuck.camera s e true,
       Event.deleteCalled recStuck.id]) ∨
    Event.logStuckFail recStuck.id ∈ process_stuck_one envFail recStuck :=
  (stuck_recovery_logging envFail recStuck).1 (by decide)

/-- C4 counterexample: a record that the stuck filter selects but whose
filename has fewer than 4 underscore parts is silently dropped — the pass
neither re-submits, deletes, nor logs anything for it. -/
theorem stuck_silent_skip_cex :
    is_stuck 100000 recBadName = true ∧
    handle_stuck_exports envAll 100000 [recBadName] = [] := by decide

/-- Splitting at a distinguished separator character is injective when
neither left part contains the separator. -/
theorem sep_free_append_inj (x : Char) (a : Str) :
    ∀ (b r r' : Str), x ∉ a → x ∉ b →
      a ++ x :: r = b ++ x :: r' → a = b ∧ r = r' := by
  induction a with
  | nil =>
    intro b r r' _ hb h
    cases b with
    | nil => simpa using h
    | cons y ys =>
      simp only [List.nil_append, List.cons_append, List.cons.injEq] at h
      obtain ⟨h1, -⟩ := h
      subst h1
      exact absurd (List.mem_cons_self _ _) hb
  | cons c cs ih =>
    intro b r r' ha hb h
    cases b with
    | nil =>
      simp only [List.cons_append, List.nil_append, List.cons.injEq] at h
      obtain ⟨h1, -⟩ := h
      subst h1
      exact absurd (List.mem_cons_self _ _) ha
    | cons y ys =>
      simp only [List.cons_append, List.cons.injEq] at h
      obtain ⟨rfl, h2⟩ := h
      obtain ⟨h3, h4⟩ := ih ys r r'
        (fun hm => ha (List.mem_cons_of_mem _ hm))
        (fun hm => hb (List.mem_cons_of_mem _ hm)) h2
      exact ⟨by rw [h3], h4⟩

/-- Components successfully extracted by the mapper have fixed lengths and
a slash-free camera. -/
theorem parse_props (f c y mo d h mi : Str)
    (hp : parse_video_name f = some (c, y, mo, d, h, mi)) :
    '/' ∉ c ∧ y.length = 4 ∧ mo.length = 2 ∧ d.length = 2 ∧
      h.length = 2 ∧ mi.length = 2 := by
  simp only [parse_video_name] at hp
  split at hp
  · split at hp
    · split at hp
      · split at hp
        · rename_i hcond hlen3 hlen hdig
          simp only [Option.some.injEq, Prod.mk.injEq] at hp
          obtain ⟨rfl, rfl, rfl, rfl, rfl, rfl⟩ := hp
          refine ⟨?_, ?_, ?_, ?_, ?_, ?_⟩
          · intro hmem
            have hc : (splitOnChar '_' (basename f)).getD 0 [] ∈
                splitOnChar '_' (basename f) := by
              simp [splitOnChar]
            exact basename_no_slash f
              (mem_splitOnChar_sub '_' (basename f) _ hc _ hmem)
          · rw [List.length_take, hlen.1]
            decide
          · rw [List.length_take, List.length_drop, hlen.1]
            decide
          · rw [List.length_take, List.length_drop, hlen.1]
            decide
          · rw [List.length_take, hlen.2]
            decide
          · rw [List.length_take, List.length_drop, hlen.2]
            decide
        · exact absurd hp (by simp)
      · exact absurd hp (by simp)
    · exact absurd hp (by simp)
  · exact absurd hp (by simp)

/-- The key format is injective on components of those shapes. -/
theorem buildKey_inj (c₁ y₁ mo₁ d₁ h₁ mi₁ c₂ y₂ mo₂ d₂ h₂ mi₂ : Str)
    (hc₁ : '/' ∉ c₁) (hc₂ : '/' ∉ c₂)
    (hy : y₁.length = 4) (hy' : y₂.length = 4)
    (hmo : mo₁.length = 2) (hmo' : mo₂.length = 2)
    (hd : d₁.length = 2) (hd' : d₂.length = 2)
    (hh : h₁.length = 2) (hh' : h₂.length = 2)
    (hmi : mi₁.length = 2) (hmi' : mi₂.length = 2)
    (heq : buildKey (c₁, y₁, mo₁, d₁, h₁, mi₁) =
      buildKey (c₂, y₂, mo₂, d₂, h₂, mi₂)) :
    c₁ = c₂ ∧ y₁ = y₂ ∧ mo₁ = mo₂ ∧ d₁ = d₂ ∧ h₁ = h₂ ∧ mi₁ = mi₂ := by
  simp only [buildKey, List.cons_append, List.append_assoc] at heq
  obtain ⟨e1, heq⟩ := sep_free_append_inj '/' c₁ c₂ _ _ hc₁ hc₂ heq
  obtain ⟨e2, heq⟩ := List.append_inj heq (hy.trans hy'.symm)
  simp only [List.cons.injEq, true_and] at heq
  obtain ⟨e3, heq⟩ := List.append_inj heq (hmo.trans hmo'.symm)
  simp only [List.cons.injEq, true_and] at heq
  obtain ⟨e4, heq⟩ := List.append_inj heq (hd.trans hd'.symm)
  simp only [List.cons.injEq, true_and] at heq
  obtain ⟨e5, heq⟩ := List.append_inj heq (hh.trans hh'.symm)
  simp only [List.cons.injEq, true_and] at heq
  obtain ⟨e6, -⟩ := List.append_inj heq (hmi.trans hmi'.symm)
  exact ⟨e1, e2, e3, e4, e5, e6⟩

/-- C8: for any two filenames the mapper accepts, the keys coincide
exactly when the extracted components (camera, year, month, day, hour,
minute) coincide; and a filename differing only in seconds, random suffix
and extension produces the identical key. -/
theorem key_collision_iff :
    (∀ (f₁ f₂ k₁ k₂ : Str), get_s3_path f₁ = some k₁ → get_s3_path f₂ = some k₂ →
      (k₁ = k₂ ↔ parse_video_name f₁ = parse_video_name f₂)) ∧
    get_s3_path (str "roadside_20251011_160000-20251011_170000_6t96gi.mp4") =
      get_s3_path (str "roadside_20251011_160059-20251011_230000_zzz999.avi") := by
  refine ⟨?_, by decide⟩
  intro f₁ f₂ k₁ k₂ h₁ h₂
  simp only [get_s3_path, Option.map_eq_some'] at h₁ h₂
  obtain ⟨t₁, hp₁, hk₁⟩ := h₁
  obtain ⟨t₂, hp₂, hk₂⟩ := h₂
  constructor
  · intro hkk
    obtain ⟨c₁, y₁, mo₁, dd₁, hh₁, mi₁⟩ := t₁
    obtain ⟨c₂, y₂, mo₂, dd₂, hh₂, mi₂⟩ := t₂
    obtain ⟨p1, q1, r1, s1, u1, v1⟩ := parse_props f₁ c₁ y₁ mo₁ dd₁ hh₁ mi₁ hp₁
    obtain ⟨p2, q2, r2, s2, u2, v2⟩ := parse_props f₂ c₂ y₂ mo₂ dd₂ hh₂ mi₂ hp₂
    have heq : buildKey (c₁, y₁, mo₁, dd₁, hh₁, mi₁) =
        buildKey (c₂, y₂, mo₂, dd₂, hh₂, mi₂) := by
      rw [hk₁, hk₂, hkk]
    obtain ⟨e1, e2, e3, e4, e5, e6⟩ :=
      buildKey_inj c₁ y₁ mo₁ dd₁ hh₁ mi₁ c₂ y₂ mo₂ dd₂ hh₂ mi₂
        p1 p2 q1 q2 r1 r2 s1 s2 u1 u2 v1 v2 heq
    rw [hp₁, hp₂, e1, e2, e3, e4, e5, e6]
  · intro hpp
    rw [hp₁, hp₂] at hpp
    injection hpp with ht
    rw [← hk₁, ← hk₂, ht]

theorem key_collision_iff_witness :
    (str "roadside/2025/10/11/16/00M.mp4" = str "stairs/2025/10/11/16/00M.mp4") ↔
    (parse_video_name (str "roadside_20251011_160000-20251011_170000_6t96gi.mp4") =
      parse_video_name (str "stairs_20251011_160000-20251011_170000_6t96gi.mp4")) :=
  key_collision_iff.1 _ _ _ _ (by decide) (by decide)

/-- C2 (amended): whenever the mapper produces a key, the extracted date
component has length 8 and the extracted time component length 6, and the
year, month, day, hour and minute slices are each nonempty all-digit
strings; these are the only validated conditions — the seconds characters
(positions 5-6 of the time component) are never digit-checked — and any
input violating a checked condition maps to `None` rather than raising. -/
theorem mapper_checked_components (f k : Str) (hk : get_s3_path f = some k) :
    ((splitOnChar '_' (basename f)).getD 1 []).length = 8 ∧
    ((splitOnChar '-' ((splitOnChar '_' (basename f)).getD 2 [])).getD 0 []).length = 6 ∧
    py_isdigit (((splitOnChar '_' (basename f)).getD 1 []).take 4) = true ∧
    py_isdigit ((((splitOnChar '_' (basename f)).getD 1 []).drop 4).take 2) = true ∧
    py_isdigit ((((splitOnChar '_' (basename f)).getD 1 []).drop 6).take 2) = true ∧
    py_isdigit (((splitOnChar '-' ((splitOnChar '_' (basename f)).getD 2 [])).getD 0 []).take 2)
      = true ∧
    py_isdigit ((((splitOnChar '-' ((splitOnChar '_' (basename f)).getD 2 [])).getD 0 []).drop 2).take 2)
      = true := by
  simp only [get_s3_path, Option.map_eq_some'] at hk
  obtain ⟨t, hp, -⟩ := hk
  simp only [parse_video_name] at hp
  split at hp
  · split at hp
    · split at hp
      · split at hp
        · rename_i hcond hlen3 hlen hdig
          simp only [Bool.and_eq_true] at hdig
          exact ⟨hlen.1, hlen.2, hdig.1.1.1.1, hdig.1.1.1.2, hdig.1.1.2,
            hdig.1.2, hdig.2⟩
        · exact absurd hp (by simp)
      · exact absurd hp (by simp)
    · exact absurd hp (by simp)
  · exact absurd hp (by simp)

theorem mapper_checked_components_witness :
    ((splitOnChar '_' (basename (str "roadside_20251011_160000-20251011_170000_6t96gi.mp4"))).getD 1 []).length = 8 ∧
    ((splitOnChar '-' ((splitOnChar '_' (basename (str "roadside_20251011_160000-20251011_170000_6t96gi.mp4"))).getD 2 [])).getD 0 []).length = 6 ∧
    py_isdigit (((splitOnChar '_' (basename (str "roadside_20251011_160000-20251011_170000_6t96gi.mp4"))).getD 1 []).take 4) = true ∧
    py_isdigit ((((splitOnChar '_' (basename (str "roadside_20251011_160000-20251011_170000_6t96gi.mp4"))).getD 1 []).drop 4).take 2) = true ∧
    py_isdigit ((((splitOnChar '_' (basename (str "roadside_20251011_160000-20251011_170000_6t96gi.mp4"))).getD 1 []).drop 6).take 2) = true ∧
    py_isdigit (((splitOnChar '-' ((splitOnChar '_' (basename (str "roadside_20251011_160000-20251011_170000_6t96gi.mp4"))).getD 2 [])).getD 0 []).take 2) = true ∧
    py_isdigit ((((splitOnChar '-' ((splitOnChar '_' (basename (str "roadside_20251011_160000-20251011_170000_6t96gi.mp4"))).getD 2 [])).getD 0 []).drop 2).take 2) = true :=
  mapper_checked_components
    (str "roadside_20251011_160000-20251011_170000_6t96gi.mp4")
    (str "roadside/2025/10/11/16/00M.mp4") (by decide)

/-- C2 counterexample: a filename whose extracted time component contains
non-digit characters (in the seconds positions) is not rejected — the
mapper returns a key for it, contradicting that every extracted date/time
component is validated to be entirely numeric. -/
theorem mapper_seconds_unchecked_cex :
    py_isdigit (str "1600ab") = false ∧
    get_s3_path (str "cam_20251011_1600ab-20251011_170000_x.mp4")
      = some (str "cam/2025/10/11/16/00M.mp4") := by decide

/-- C10: the camera segment is never validated — for any camera string
(empty included) the mapper's outcome is the outcome on the rest of the
filename with the camera passed through verbatim as the key's leading
component, and the concrete empty-camera input yields a key that begins
with a slash. -/
theorem camera_unvalidated :
    (∀ (cam rest : Str), '_' ∉ cam → '/' ∉ cam → '/' ∉ rest → '-' ∈ rest →
      parse_video_name (cam ++ '_' :: rest) =
        (parse_tail rest).map (fun t => (cam, t))) ∧
    get_s3_path (str "_20251011_160000-20251011_170000_x.mp4") =
      some (str "/2025/10/11/16/00M.mp4") := by
  refine ⟨?_, by decide⟩
  intro cam rest hu hs1 hs2 hdash
  have hfn : basename (cam ++ '_' :: rest) = cam ++ '_' :: rest := by
    apply basename_of_no_slash
    intro hmem
    rcases List.mem_append.mp hmem with hmem | hmem
    · exact hs1 hmem
    · rcases List.mem_cons.mp hmem with hmem | hmem
      · exact absurd hmem (by decide)
      · exact hs2 hmem
  have hparts := splitOnChar_append_sep '_' cam rest hu
  have hunder : '_' ∈ cam ++ '_' :: rest :=
    List.mem_append_right _ (List.mem_cons_self _ _)
  have hdash2 : '-' ∈ cam ++ '_' :: rest :=
    List.mem_append_right _ (List.mem_cons_of_mem _ hdash)
  simp only [parse_video_name, parse_tail, hfn, hparts]
  rw [if_pos ⟨hunder, hdash2⟩]
  simp only [List.length_cons, List.getD_cons_zero, List.getD_cons_succ]
  by_cases hlen : 2 ≤ (splitOnChar '_' rest).length
  · rw [if_pos (by omega), if_pos hlen]
    split
    · split
      · simp
      · simp
    · simp
  · rw [if_neg (by omega), if_neg hlen]
    simp

theorem camera_unvalidated_witness :
    parse_video_name (str "roadside" ++ '_' :: str "20251011_160000-20251011_170000_x.mp4") =
      (parse_tail (str "20251011_160000-20251011_170000_x.mp4")).map
        (fun t => (str "roadside", t)) :=
  camera_unvalidated.1 (str "roadside") (str "20251011_160000-20251011_170000_x.mp4")
    (by decide) (by decide) (by decide) (by decide)

theorem finished_filter_truthiness_witness :
    Event.uploaded recDone.id (str "roadside/2025/10/11/16/00M.mp4") true ∈
      upload_and_cleanup envAll [recDone] :=
  finished_filter_truthiness.2.2.2.2.2 envAll [recDone] recDone
    (Event.uploaded recDone.id (str "roadside/2025/10/11/16/00M.mp4") true)
    rfl (by decide) (by decide) (by decide)
